import Mathlib

/-!
Shallow embedding of the daily-ayat-hadith generator core
(modules: database, hadith_provider, state) together with proofs of the
specification claims about it.

Python strings are modelled as `List Char` (Python `len` is the number of
characters, matching `List.length`; Python string indexing/iteration is by
character).  Each Lean definition carries a note naming the Python function
it embeds.
-/

/-- Python strings are modelled as lists of characters. -/
abbrev Str := List Char

/-- Convenience coercion from Lean string literals. -/
def strOf (s : String) : Str := s.data

/-- Characters matched by the regex class backslash-s in Python (`re.sub`
with a raw whitespace-class pattern), restricted to the ASCII whitespace
characters; Unicode exotic spaces are not modelled since no claim involves
them. -/
def pyIsSpace (c : Char) : Bool :=
  c == ' ' || c == '\t' || c == '\n' || c == '\r' || c == '\x0b' || c == '\x0c'

/-- Embeds the first step of `IslamicDatabase._clean_text`
(database.py line 100): Python `text.replace` of the literal two-character
sequence backslash-n by a single space, scanning left to right. -/
def replaceLitBackslashN : List Char → List Char
  | [] => []
  | '\\' :: 'n' :: cs => ' ' :: replaceLitBackslashN cs
  | c :: cs => c :: replaceLitBackslashN cs

/-- Embeds the second step of `IslamicDatabase._clean_text`
(database.py line 103): replace each actual newline character by a space. -/
def mapActualNewline (l : List Char) : List Char :=
  l.map (fun c => if c == '\n' then ' ' else c)

/-- Worker for `collapseWs`: the flag records whether the previous character
belonged to a whitespace run (so the run has already emitted its single
space). -/
def collapseWsAux : Bool → List Char → List Char
  | _, [] => []
  | inRun, c :: cs =>
    if pyIsSpace c then
      if inRun then collapseWsAux true cs else ' ' :: collapseWsAux true cs
    else c :: collapseWsAux false cs

/-- Embeds the third step of `IslamicDatabase._clean_text`
(database.py line 106): `re.sub` collapsing every maximal run of whitespace
characters into one single space character. -/
def collapseWs (l : List Char) : List Char :=
  collapseWsAux false l

/-- Embeds Python `str.strip` (database.py line 109): drop whitespace from
both ends. -/
def pyStrip (l : List Char) : List Char :=
  ((l.dropWhile (fun c => pyIsSpace c)).reverse.dropWhile (fun c => pyIsSpace c)).reverse

/-- Embeds `IslamicDatabase._clean_text` (database.py lines 94-111).
The Python guard `if not text: return text` is the identity on the empty
string, which the pipeline below also maps to itself, so no separate branch
is needed. -/
def cleanText (l : Str) : Str :=
  pyStrip (collapseWs (mapActualNewline (replaceLitBackslashN l)))

/-- Definition written from the claim wording for C3 (spec section 4.1),
to be compared with `cleanText` from the source: literal two-character
escape sequences backslash-n, backslash-r, backslash-t, stray backslashes,
and actual newline/carriage-return/tab characters all become spaces. -/
def specEscapesToSpace : List Char → List Char
  | [] => []
  | '\\' :: c :: rest =>
    if c == 'n' || c == 'r' || c == 't' then ' ' :: specEscapesToSpace rest
    else ' ' :: specEscapesToSpace (c :: rest)
  | c :: rest => (if pyIsSpace c then ' ' else c) :: specEscapesToSpace rest

/-- Collapse runs of the single space character (used after every
whitespace-like character has already been mapped to a space). -/
def collapseSpaceRuns (l : List Char) : List Char :=
  match l with
  | [] => []
  | c :: cs =>
    if c == ' ' then
      match cs with
      | ' ' :: _ => collapseSpaceRuns cs
      | _ => ' ' :: collapseSpaceRuns cs
    else c :: collapseSpaceRuns cs

/-- The normalization described by claim C3, following the spec words:
collapse literal backslash escapes, actual control characters and stray
backslashes into single spaces, then trim. -/
def specCleanText (l : Str) : Str :=
  pyStrip (collapseSpaceRuns (specEscapesToSpace l))

/-- Map every whitespace character to a plain space. -/
def wsToSpace (l : List Char) : List Char :=
  l.map (fun c => if pyIsSpace c then ' ' else c)

/-- The normalization `cleanText` actually performs, stated the way the
amended claim C3 words it: replace the literal backslash-n escape by a
space, turn every actual whitespace control character into a space,
collapse whitespace runs into single spaces, trim.  Proved extensionally
equal to `cleanText`. -/
def amendedCleanText (l : Str) : Str :=
  pyStrip (collapseWs (wsToSpace (replaceLitBackslashN l)))

/-- One row of the `ayah` table: surah number, ayah number, and the text of
the configured Arabic font column. -/
structure AyahRow where
  surah : Nat
  ayah : Nat
  text : Str
deriving DecidableEq

/-- One row of the `surah` table. -/
structure SurahRow where
  surah : Nat
  nameEnglish : Str
deriving DecidableEq

/-- One row of the `translations` table, restricted to the configured Urdu
and English translation columns. -/
structure TransRow where
  surah : Nat
  ayah : Nat
  urdu : Str
  english : Str
deriving DecidableEq

/-- The Quran side of the SQLite database.  The `ayahs` list is the `ayah`
table in its (SurahNumber, AyahNumber) order, which is what every query
with ORDER BY AyahNumber returns; `surahs` and `translations` are keyed by
their number columns. -/
structure QuranDb where
  ayahs : List AyahRow
  surahs : List SurahRow
  translations : List TransRow

/-- The `Ayah` dataclass of database.py. -/
structure Ayah where
  surah_number : Nat
  ayah_number : Nat
  arabic_text : Str
  urdu_translation : Str
  english_translation : Str
  surah_name : Str
deriving DecidableEq

/-- The `CombinedAyah` dataclass of database.py. -/
structure CombinedAyah where
  surah_number : Nat
  start_ayah : Nat
  end_ayah : Nat
  arabic_text : Str
  urdu_translation : Str
  english_translation : Str
  surah_name : Str
  ayah_count : Nat
deriving DecidableEq

/-- Embeds `IslamicDatabase.get_ayah` (database.py lines 113-149): the
first SELECT joins `ayah` with `surah`, the second reads `translations`;
a missing row raises ValueError, modelled as `none`.  Note which fields
are cleaned: Arabic and Urdu pass through `cleanText`, the English
translation and the surah name are returned as stored. -/
def getAyah (db : QuranDb) (surahNumber ayahNumber : Nat) : Option Ayah :=
  match db.ayahs.find? (fun r => r.surah == surahNumber && r.ayah == ayahNumber),
        db.surahs.find? (fun r => r.surah == surahNumber),
        db.translations.find? (fun r => r.surah == surahNumber && r.ayah == ayahNumber) with
  | some ar, some sr, some tr =>
    some { surah_number := ar.surah, ayah_number := ar.ayah,
           arabic_text := cleanText ar.text,
           urdu_translation := cleanText tr.urdu,
           english_translation := tr.english,
           surah_name := sr.nameEnglish }
  | _, _, _ => none

/-- The JOIN of one `ayah` row with its `translations` and `surah` rows,
as performed by `IslamicDatabase._get_ayahs_in_surah` (database.py lines
151-179); rows without a translation or surah row are dropped by the inner
join.  The `or ""` on the English column is the identity in this model
(SQL NULL is not distinguished from the empty string). -/
def joinRow (db : QuranDb) (r : AyahRow) : Option Ayah :=
  match db.translations.find? (fun t => t.surah == r.surah && t.ayah == r.ayah),
        db.surahs.find? (fun u => u.surah == r.surah) with
  | some t, some u =>
    some { surah_number := r.surah, ayah_number := r.ayah,
           arabic_text := cleanText r.text,
           urdu_translation := cleanText t.urdu,
           english_translation := t.english,
           surah_name := u.nameEnglish }
  | _, _ => none

/-- Embeds `IslamicDatabase._get_ayahs_in_surah`: WHERE SurahNumber = s AND
AyahNumber >= start, ORDER BY AyahNumber, LIMIT count. -/
def getAyahsInSurah (db : QuranDb) (surahNumber startAyah count : Nat) : List Ayah :=
  (((db.ayahs.filter (fun r => r.surah == surahNumber && startAyah ≤ r.ayah)).filterMap
      (joinRow db)).take count)

/-- The `MIN_CONTENT_LENGTH` constant of database.py (line 81). -/
def MIN_CONTENT_LENGTH : Nat := 350

/-- The `MAX_CONTENT_LENGTH` constant of database.py (line 82). -/
def MAX_CONTENT_LENGTH : Nat := 2000

/-- The `MAX_AYAHS_TO_COMBINE` constant of database.py (line 83). -/
def MAX_AYAHS_TO_COMBINE : Nat := 3

/-- Embeds `IslamicDatabase._calculate_content_length` (database.py lines
181-183). -/
def contentLength (a : Ayah) : Nat :=
  a.arabic_text.length + a.urdu_translation.length + a.english_translation.length

/-- Embeds the growing loop of `IslamicDatabase._get_combined_ayahs`
(database.py lines 262-276): `last` is the last ayah already included,
`cur` the running combined length, `rest` the remaining fetched ayahs.
Returns the ayahs appended beyond the first one. -/
def selGo (last : Ayah) (cur : Nat) : List Ayah → List Ayah
  | [] => []
  | next :: rest =>
    if MIN_CONTENT_LENGTH ≤ cur then []
    else if next.ayah_number ≠ last.ayah_number + 1 then []
    else if MAX_CONTENT_LENGTH < cur + contentLength next then []
    else next :: selGo next (cur + contentLength next) rest

/-- The list `combined` built by `_get_combined_ayahs` from the fetched
ayahs: the first fetched ayah always included, then the loop. -/
def selectFrom (first : Ayah) (rest : List Ayah) : List Ayah :=
  first :: selGo first (contentLength first) rest

/-- Decimal digit string of a natural number, as Python `str` renders it. -/
def natStr (n : Nat) : Str := (Nat.repr n).data

/-- Python `" ".join(parts)`. -/
def joinSpace : List Str → Str
  | [] => []
  | [x] => x
  | x :: rest => x ++ ' ' :: joinSpace rest

/-- The Arabic parts built by `_combine_ayahs` (database.py lines 216-225):
every ayah but the last gets the separator glyph appended. -/
def arabicParts : List Ayah → List Str
  | [] => []
  | [a] => [a.arabic_text]
  | a :: rest => (a.arabic_text ++ (" ۞").data) :: arabicParts rest

/-- The numbered Urdu parts of `_combine_ayahs` (database.py line 227). -/
def urduParts (l : List Ayah) : List Str :=
  l.map (fun a => a.urdu_translation ++ (" (").data ++ natStr a.ayah_number ++ (")").data)

/-- The numbered English parts of `_combine_ayahs` (database.py line 228). -/
def englishParts (l : List Ayah) : List Str :=
  l.map (fun a => a.english_translation ++ (" (").data ++ natStr a.ayah_number ++ (")").data)

/-- Embeds `IslamicDatabase._combine_ayahs` (database.py lines 185-239) on
a nonempty list given as head and tail.  A single ayah passes through
unmodified; several get the markers and separators. -/
def combineAyahs (first : Ayah) (rest : List Ayah) : CombinedAyah :=
  match rest with
  | [] =>
    { surah_number := first.surah_number, start_ayah := first.ayah_number,
      end_ayah := first.ayah_number, arabic_text := first.arabic_text,
      urdu_translation := first.urdu_translation,
      english_translation := first.english_translation,
      surah_name := first.surah_name, ayah_count := 1 }
  | _ :: _ =>
    { surah_number := first.surah_number, start_ayah := first.ayah_number,
      end_ayah := (rest.getLastD first).ayah_number,
      arabic_text := joinSpace (arabicParts (first :: rest)),
      urdu_translation := joinSpace (urduParts (first :: rest)),
      english_translation := joinSpace (englishParts (first :: rest)),
      surah_name := first.surah_name, ayah_count := (first :: rest).length }

/-- Embeds `IslamicDatabase._get_combined_ayahs` (database.py lines
241-278); `none` models the ValueError when no ayahs are found. -/
def getCombinedAyahs (db : QuranDb) (surahNumber ayahNumber : Nat) : Option CombinedAyah :=
  match getAyahsInSurah db surahNumber ayahNumber MAX_AYAHS_TO_COMBINE with
  | [] => none
  | first :: rest => some (combineAyahs first (selGo first (contentLength first) rest))

/-- Minimum of a list of naturals, `none` on the empty list; embeds the SQL
ORDER BY ... LIMIT 1 / MIN(...) idiom. -/
def listMin : List Nat → Option Nat
  | [] => none
  | a :: l =>
    match listMin l with
    | none => some a
    | some b => some (min a b)

/-- Ayah numbers strictly after position n inside surah s (the WHERE clause
of the first query of `get_next_ayah`, database.py lines 298-304). -/
def ayahNumbersAfter (t : List AyahRow) (s n : Nat) : List Nat :=
  t.filterMap (fun r => if r.surah == s && n < r.ayah then some r.ayah else none)

/-- Surah numbers strictly greater than s occurring in the table. -/
def surahNumbersAfter (t : List AyahRow) (s : Nat) : List Nat :=
  t.filterMap (fun r => if s < r.surah then some r.surah else none)

/-- Ayah numbers of surah s occurring in the table. -/
def ayahNumbersOf (t : List AyahRow) (s : Nat) : List Nat :=
  t.filterMap (fun r => if r.surah == s then some r.ayah else none)

/-- The successor-position computation of `IslamicDatabase.get_next_ayah`
(database.py lines 295-323): smallest ayah after the current one in the
same surah; else the first ayah of the smallest later surah; else the
hard-coded wrap to surah 1, ayah 1.  The inner `none` branch of the second
case is unreachable (a surah number drawn from the table has an ayah). -/
def nextAyahPos (t : List AyahRow) (s n : Nat) : Nat × Nat :=
  match listMin (ayahNumbersAfter t s n) with
  | some m => (s, m)
  | none =>
    match listMin (surahNumbersAfter t s) with
    | some s2 =>
      match listMin (ayahNumbersOf t s2) with
      | some m => (s2, m)
      | none => (1, 1)
    | none => (1, 1)

/-- Embeds `IslamicDatabase.get_next_ayah` (database.py lines 280-325):
the successor position is resolved through `_get_combined_ayahs`. -/
def getNextAyah (db : QuranDb) (s n : Nat) : Option CombinedAyah :=
  getCombinedAyahs db (nextAyahPos db.ayahs s n).1 (nextAyahPos db.ayahs s n).2

/-- The `Hadith` dataclass of database.py (lines 57-65). -/
structure Hadith where
  hadith_number : Nat
  arabic_text : Str
  urdu_translation : Str
  english_translation : Str
  grade : Str
  graded_by : Str
deriving DecidableEq

/-- One row of the `mishkaat` table (HadithNumber, Arabic, Urdu). -/
structure HadithRow where
  num : Nat
  arabic : Str
  urdu : Str
deriving DecidableEq

/-- Embeds `IslamicDatabase._generate_hadith_english` (database.py lines
351-359): a hard-coded dictionary of manual translations, empty string for
every other number.  The Urdu argument is accepted and ignored, as in the
source. -/
def generateHadithEnglish (hadithNumber : Nat) (_urduText : Str) : Str :=
  if hadithNumber = 4629 then
    ("Abdullah ibn Amr narrated that a man asked Allah\x27s Messenger \uFDFA, \"Which characteristic of Islam is best?\" He said, \"You should feed food and should greet not only those you know but also those whom you do not know.\"").data
  else if hadithNumber = 4631 then
    ("Abu Hurayrah narrated that Allah\x27s Messenger \uFDFA said, \"You shall not enter paradise until you believe, and you shall not be perfect in belief unless you love each other. Shall I not guide you to that, which if you practice, you shall love each other? Spread salaam among yourselves (offering salaam to acquaintances and strangers alike).\"").data
  else []

/-- Embeds `IslamicDatabase.get_hadith` (database.py lines 327-349): fetch
the mishkaat row, clean Arabic and Urdu, look up the manual English
translation; the grade fields of the dataclass keep their empty defaults
because the mishkaat table stores no grade. -/
def dbGetHadith (db : List HadithRow) (n : Nat) : Option Hadith :=
  (db.find? (fun r => r.num == n)).map (fun r =>
    { hadith_number := r.num,
      arabic_text := cleanText r.arabic,
      urdu_translation := cleanText r.urdu,
      english_translation := generateHadithEnglish r.num r.urdu,
      grade := [], graded_by := [] })

/-- Hadith numbers strictly greater than n in the mishkaat table. -/
def hadithNumbersGt (db : List HadithRow) (n : Nat) : List Nat :=
  db.filterMap (fun r => if n < r.num then some r.num else none)

/-- All hadith numbers of the mishkaat table. -/
def hadithNumbers (db : List HadithRow) : List Nat :=
  db.map (fun r => r.num)

/-- Embeds `IslamicDatabase.get_next_hadith` (database.py lines 361-385):
smallest number strictly greater than the current one, wrapping to the
smallest number of the whole table; `none` models the ValueError on an
empty table. -/
def dbGetNextHadith (db : List HadithRow) (n : Nat) : Option Hadith :=
  match listMin (hadithNumbersGt db n) with
  | some m => dbGetHadith db m
  | none =>
    match listMin (hadithNumbers db) with
    | some m => dbGetHadith db m
    | none => none

/-- The `ScrapedHadith` dataclass of sunnah_scraper.py (the Primary Remote
source record). -/
structure ScrapedHadith where
  hadith_number : Nat
  arabic_text : Str
  english_translation : Str
  collection : Str
  grade : Str
  graded_by : Str
deriving DecidableEq

/-- The `AlHadeesScrapedHadith` dataclass of alhadees_scraper.py (the
Secondary Remote source record). -/
structure AlHadeesScrapedHadith where
  hadith_number : Nat
  arabic_text : Str
  urdu_translation : Str
  grade : Str
  graded_by : Str
deriving DecidableEq

/-- The distinct fatal errors `HadithProvider` raises (all ValueError in
Python, distinguished here by their message). -/
inductive ProviderError where
  | sourceExhausted
  | notFound
  | noSource
  | noLocalDb
  | exhaustedRetries
deriving DecidableEq

/-- The `HadithProvider` with its configuration collapsed in (mode string,
optional Primary Remote scraper, optional Secondary Remote scraper,
optional AI translation capability, optional local database,
fallback-to-local flag).  The remote sources and the AI capability are
modelled as functions that either return a record or fail, matching the
scraper exceptions. -/
structure HadithProvider where
  mode : Str
  scraper : Option (Nat → Except Unit ScrapedHadith)
  alhadees : Option (Nat → Except Unit AlHadeesScrapedHadith)
  translationGen : Option (Str → Str → Nat → Except Unit Str)
  db : Option (List HadithRow)
  fallbackToLocal : Bool

/-- The apostrophe character, U+0027. -/
def apos : Char := Char.ofNat 39

/-- Python-style lowercase folding: ASCII capitals map to lowercase, all
other characters (in particular the Arabic script ones appearing in the
grade labels) are unchanged, matching what Python lower does on every
string any claim mentions. -/
def pyLower (l : Str) : Str := l.map Char.toLower

/-- Boolean list prefix test on characters. -/
def isPrefixOfChars : Str → Str → Bool
  | [], _ => true
  | _ :: _, [] => false
  | a :: as, b :: bs => a == b && isPrefixOfChars as bs

/-- Python `needle in haystack` substring containment. -/
def containsSub (needle : Str) : Str → Bool
  | [] => isPrefixOfChars needle []
  | c :: cs => isPrefixOfChars needle (c :: cs) || containsSub needle cs

/-- The `weak_indicators` denylist of `HadithProvider._is_weak_hadith`
(hadith_provider.py lines 281-290): weak-grade markers in Urdu spelling,
Arabic spelling and transliterations, plus fabrication markers; the
transliteration written daif with an apostrophe is built with `apos`. -/
def weakIndicators : List Str :=
  [("ضعیف").data,
   ("ضعيف").data,
   ("zaeef").data,
   ['d', 'a', apos, 'i', 'f'],
   ("daif").data,
   ("weak").data,
   ("موضوع").data,
   ("mawdu").data]

/-- Embeds `HadithProvider._is_weak_hadith` (hadith_provider.py lines
266-298): empty grade is never weak, otherwise lowercase the grade and
test every denylist entry for substring containment. -/
def isWeakHadith (h : Hadith) : Bool :=
  if h.grade = [] then false
  else weakIndicators.any (fun ind => containsSub ind (pyLower h.grade))

/-- Embeds `HadithProvider._convert_scraped_to_hadith` (hadith_provider.py
lines 129-152): Arabic/English/grading from the Primary Remote record,
Urdu filled best-effort from the local database (empty on any failure). -/
def convertScraped (p : HadithProvider) (scraped : ScrapedHadith) : Hadith :=
  let urdu : Str :=
    match p.db with
    | some db =>
      match dbGetHadith db scraped.hadith_number with
      | some localHadith => localHadith.urdu_translation
      | none => []
    | none => []
  { hadith_number := scraped.hadith_number,
    arabic_text := scraped.arabic_text,
    urdu_translation := urdu,
    english_translation := scraped.english_translation,
    grade := scraped.grade,
    graded_by := scraped.graded_by }

/-- The best-effort local English fill of `_convert_alhadees_to_hadith`
(hadith_provider.py lines 165-173): only a nonempty local English
translation is taken; any lookup failure leaves the field empty. -/
def localEnglishFill (p : HadithProvider) (n : Nat) : Str :=
  match p.db with
  | some db =>
    match dbGetHadith db n with
    | some localHadith =>
      if localHadith.english_translation ≠ [] then localHadith.english_translation else []
    | none => []
  | none => []

/-- The `temp_hadith` record `_convert_alhadees_to_hadith` builds
(hadith_provider.py lines 177-184) to run the weak gate on before any AI
call: the Secondary Remote fields with the locally filled English. -/
def alhadeesTemp (p : HadithProvider) (scraped : AlHadeesScrapedHadith) : Hadith :=
  { hadith_number := scraped.hadith_number,
    arabic_text := scraped.arabic_text,
    urdu_translation := scraped.urdu_translation,
    english_translation := localEnglishFill p scraped.hadith_number,
    grade := scraped.grade,
    graded_by := scraped.graded_by }

/-- Embeds `HadithProvider._convert_alhadees_to_hadith` (hadith_provider.py
lines 154-212): Arabic, Urdu and grading from the Secondary Remote record;
English first from the local database, then — only when still missing, an
AI capability is configured and the weak gate (run on the record before
any AI call) passes — from the AI capability, whose failure leaves the
field empty. -/
def convertAlhadees (p : HadithProvider) (scraped : AlHadeesScrapedHadith) : Hadith :=
  let e0 := localEnglishFill p scraped.hadith_number
  let temp : Hadith := alhadeesTemp p scraped
  let english :=
    if e0 = [] then
      match p.translationGen with
      | some gen =>
        if isWeakHadith temp then e0
        else
          match gen scraped.arabic_text scraped.urdu_translation scraped.hadith_number with
          | Except.ok e => e
          | Except.error _ => e0
      | none => e0
    else e0
  { temp with english_translation := english }

/-- The trailing local-database section of `HadithProvider.get_hadith`
(hadith_provider.py lines 259-264). -/
def localFetch (p : HadithProvider) (n : Nat) : Except ProviderError Hadith :=
  match p.db with
  | some db =>
    match dbGetHadith db n with
    | some h => Except.ok h
    | none => Except.error ProviderError.notFound
  | none => Except.error ProviderError.noSource

/-- Embeds `HadithProvider.get_hadith` (hadith_provider.py lines 214-264):
in online mode with a Primary Remote configured, try it; on its failure try
the Secondary Remote; if that fails too, fall back to the local database
when enabled and available, otherwise fail with the all-online-sources
error; outside online mode go straight to the local database. -/
def getHadith (p : HadithProvider) (n : Nat) : Except ProviderError Hadith :=
  match p.scraper with
  | some primary =>
    if p.mode = ("online").data then
      match primary n with
      | Except.ok scraped => Except.ok (convertScraped p scraped)
      | Except.error _ =>
        match (match p.alhadees with
               | some secondary =>
                 match secondary n with
                 | Except.ok a => some (convertAlhadees p a)
                 | Except.error _ => none
               | none => none) with
        | some h => Except.ok h
        | none =>
          if p.fallbackToLocal ∧ p.db.isSome then localFetch p n
          else Except.error ProviderError.sourceExhausted
    else localFetch p n
  | none => localFetch p n

/-- The retry loop of `HadithProvider.get_next_hadith` (hadith_provider.py
lines 316-336): the fuel is the remaining attempt budget, `n` the number
tried last; each round asks the local database for the successor of `n`,
resolves that number through `getHadith`, and returns it unless the weak
gate rejects it, in which case one attempt is consumed and the loop
continues from the successor number. -/
def getNextHadithLoop (p : HadithProvider) (db : List HadithRow) : Nat → Nat → Except ProviderError Hadith
  | 0, _ => Except.error ProviderError.exhaustedRetries
  | fuel + 1, n =>
    match dbGetNextHadith db n with
    | none => Except.error ProviderError.notFound
    | some meta =>
      match getHadith p meta.hadith_number with
      | Except.error e => Except.error e
      | Except.ok h =>
        if isWeakHadith h then getNextHadithLoop p db fuel meta.hadith_number
        else Except.ok h

/-- Embeds `HadithProvider.get_next_hadith` (hadith_provider.py lines
300-336): sequencing always comes from the local database, which must be
present. -/
def getNextHadith (p : HadithProvider) (current maxAttempts : Nat) : Except ProviderError Hadith :=
  match p.db with
  | none => Except.error ProviderError.noLocalDb
  | some db => getNextHadithLoop p db maxAttempts current

/-- The `DailyState` dataclass of state.py (lines 9-16). -/
structure DailyState where
  last_date : Str
  content_type : Str
  last_surah : Nat
  last_ayah : Nat
  last_hadith : Nat
deriving DecidableEq

/-- Python string comparison `a < b`: lexicographic by code point. -/
def pyStrLt : Str → Str → Bool
  | [], [] => false
  | [], _ :: _ => true
  | _ :: _, [] => false
  | a :: as, b :: bs => if a < b then true else if b < a then false else pyStrLt as bs

/-- Embeds `StateManager.should_generate_for_date` (state.py lines 53-66)
for a target date given as an ISO string: true exactly when the target is
strictly greater than the stored last date under Python string
comparison. -/
def shouldGenerateForDate (st : DailyState) (targetDate : Str) : Bool :=
  pyStrLt st.last_date targetDate

/-- Embeds `StateManager.update_after_generation` (state.py lines 75-110)
with an explicitly supplied target date (the today-default of the Python
signature is outside the model; every claim passes a date).  The date and
content type are always overwritten; the cursor fields are updated only in
the branch selected by the content type and only when the corresponding
arguments are present. -/
def updateAfterGeneration (st : DailyState) (contentType : Str)
    (surah ayah hadith : Option Nat) (targetDate : Str) : DailyState :=
  let st1 := { st with last_date := targetDate, content_type := contentType }
  if contentType = ("ayat").data ∧ surah.isSome ∧ ayah.isSome then
    { st1 with last_surah := surah.getD st1.last_surah,
               last_ayah := ayah.getD st1.last_ayah }
  else if contentType = ("hadith").data ∧ hadith.isSome then
    { st1 with last_hadith := hadith.getD st1.last_hadith }
  else if contentType = ("both").data then
    let st2 :=
      match surah, ayah with
      | some s, some a => { st1 with last_surah := s, last_ayah := a }
      | _, _ => st1
    match hadith with
    | some h => { st2 with last_hadith := h }
    | none => st2
  else st1

/-- Combined character count of all language fields of a list of ayahs
(the running `current_length` of `_get_combined_ayahs` sums exactly
this). -/
def totalLen (l : List Ayah) : Nat :=
  (l.map contentLength).sum

/-- A hadith record carrying only a grade label, used to exercise the weak
gate on the grade strings named by the claims. -/
def hadithWithGrade (g : Str) : Hadith :=
  { hadith_number := 1, arabic_text := [], urdu_translation := [],
    english_translation := [], grade := g, graded_by := [] }

/-- Concrete mishkaat table with hadiths numbered 1, 2, 3 (example data for
the claims about sequencing). -/
def exDb : List HadithRow :=
  [{ num := 1, arabic := ("a1").data, urdu := ("u1").data },
   { num := 2, arabic := ("a2").data, urdu := ("u2").data },
   { num := 3, arabic := ("a3").data, urdu := ("u3").data }]

/-- A Primary Remote source whose record for number 2 is weak-graded and
whose other records carry a sound grade. -/
def exScraped (n : Nat) : ScrapedHadith :=
  { hadith_number := n, arabic_text := ("arabic").data,
    english_translation := ("english").data, collection := ("mishkat").data,
    grade := if n = 2 then ("ضعیف").data else ("صحیح").data, graded_by := [] }

/-- Online-mode provider over `exDb` whose configured source grades number
2 weak: the realization of the claim C1 example (the mishkaat table itself
stores no grade, so the weak grade necessarily comes from the configured
source). -/
def exProvider : HadithProvider :=
  { mode := ("online").data,
    scraper := some (fun n => Except.ok (exScraped n)),
    alhadees := none,
    translationGen := none,
    db := some exDb,
    fallbackToLocal := true }

/-- Online-mode provider over `exDb` whose configured source grades every
record weak. -/
def exProviderAllWeak : HadithProvider :=
  { mode := ("online").data,
    scraper := some (fun n => Except.ok { exScraped n with grade := ("ضعیف").data }),
    alhadees := none,
    translationGen := none,
    db := some exDb,
    fallbackToLocal := true }

/-- A Secondary Remote record used by the fallback claims. -/
def exSecondary : AlHadeesScrapedHadith :=
  { hadith_number := 7, arabic_text := ("ar7").data,
    urdu_translation := ("ur7").data, grade := ("صحیح").data,
    graded_by := ("x").data }

/-- Online-mode provider whose Primary Remote always fails and whose
Secondary Remote always returns `exSecondary`. -/
def exProviderFb : HadithProvider :=
  { mode := ("online").data,
    scraper := some (fun _ => Except.error ()),
    alhadees := some (fun _ => Except.ok exSecondary),
    translationGen := none,
    db := some exDb,
    fallbackToLocal := true }

/-- Like `exProviderFb` but with an AI translation capability that returns
a fixed text. -/
def exProviderAI : HadithProvider :=
  { exProviderFb with translationGen := some (fun _ _ _ => Except.ok (("ai").data)) }

/-- Small Quran database: surah 1 with three short consecutive ayahs and a
second surah, with matching translations. -/
def qdbEx : QuranDb :=
  { ayahs := [{ surah := 1, ayah := 1, text := ("taaa").data },
              { surah := 1, ayah := 2, text := ("tbbb").data },
              { surah := 1, ayah := 3, text := ("tccc").data },
              { surah := 2, ayah := 1, text := ("tddd").data }],
    surahs := [{ surah := 1, nameEnglish := ("Al-Fatiha").data },
               { surah := 2, nameEnglish := ("Al-Baqarah").data }],
    translations := [{ surah := 1, ayah := 1, urdu := ("ua").data, english := ("ea").data },
                     { surah := 1, ayah := 2, urdu := ("ub").data, english := ("eb").data },
                     { surah := 1, ayah := 3, urdu := ("uc").data, english := ("ec").data },
                     { surah := 2, ayah := 1, urdu := ("ud").data, english := ("ed").data }] }

/-- One-row Quran database whose stored English translation contains an
actual newline (example data for claim C3). -/
def qdbDirty : QuranDb :=
  { ayahs := [{ surah := 1, ayah := 1, text := ("ar").data }],
    surahs := [{ surah := 1, nameEnglish := ("Name").data }],
    translations := [{ surah := 1, ayah := 1, urdu := ("ur").data, english := ("e\nf").data }] }

/-- A concrete progress state used by the witnesses. -/
def exState : DailyState :=
  { last_date := ("2024-01-01").data, content_type := ("ayat").data,
    last_surah := 2, last_ayah := 141, last_hadith := 17 }

theorem pyStrLt_iff_lex (as bs : Str) : pyStrLt as bs = true ↔ List.Lex (· < ·) as bs := by
  induction as generalizing bs with
  | nil =>
    cases bs with
    | nil =>
      constructor
      · intro h; exact absurd h (by decide)
      · intro h; cases h
    | cons b bs =>
      constructor
      · intro _; exact List.Lex.nil
      · intro _; rfl
  | cons a as ih =>
    cases bs with
    | nil =>
      constructor
      · intro h; exact absurd h (by simp [pyStrLt])
      · intro h; cases h
    | cons b bs =>
      rw [pyStrLt]
      by_cases hab : a < b
      · simp only [if_pos hab]
        constructor
        · intro _; exact List.Lex.rel hab
        · intro _; trivial
      · by_cases hba : b < a
        · simp only [if_neg hab, if_pos hba]
          constructor
          · intro h; exact absurd h (by decide)
          · intro h
            cases h with
            | rel h => exact absurd h hab
            | cons h => exact absurd hba (lt_irrefl a)
        · have hev : a = b := le_antisymm (not_lt.mp hba) (not_lt.mp hab)
          subst hev
          simp only [if_neg hab, if_neg hba]
          rw [ih]
          constructor
          · intro h; exact List.Lex.cons h
          · intro h
            cases h with
            | rel h => exact absurd h (lt_irrefl a)
            | cons h => exact h

theorem update_last_date (st : DailyState) (ct : Str) (s a h : Option Nat) (d : Str) :
    (updateAfterGeneration st ct s a h d).last_date = d := by
  rcases s with _ | s1 <;> rcases a with _ | a1 <;> rcases h with _ | h1 <;>
    simp [updateAfterGeneration] <;> split_ifs <;> rfl

theorem update_content_type (st : DailyState) (ct : Str) (s a h : Option Nat) (d : Str) :
    (updateAfterGeneration st ct s a h d).content_type = ct := by
  rcases s with _ | s1 <;> rcases a with _ | a1 <;> rcases h with _ | h1 <;>
    simp [updateAfterGeneration] <;> split_ifs <;> rfl

/-- Claim C5: the weak-grading gate classifies a record as weak exactly
when its case-folded grade label contains a member of the fixed denylist
as a substring; an empty grade is never weak; the named example grades
evaluate as the claim states. -/
theorem weak_gate_characterization :
    (∀ h : Hadith, isWeakHadith h = true ↔
        ∃ ind ∈ weakIndicators, containsSub ind (pyLower h.grade) = true) ∧
    (∀ h : Hadith, h.grade = [] → isWeakHadith h = false) ∧
    isWeakHadith (hadithWithGrade (("ضعیف").data)) = true ∧
    isWeakHadith (hadithWithGrade ['d', 'a', apos, 'i', 'f']) = true ∧
    isWeakHadith (hadithWithGrade (("Mawdu").data)) = true ∧
    isWeakHadith (hadithWithGrade (("WEAK").data)) = true ∧
    isWeakHadith (hadithWithGrade []) = false ∧
    isWeakHadith (hadithWithGrade (("صحیح").data)) = false ∧
    isWeakHadith (hadithWithGrade (("Sahih").data)) = false := by
  refine ⟨?_, ?_, by decide, by decide, by decide, by decide, by decide, by decide, by decide⟩
  · intro h
    by_cases hg : h.grade = []
    · have hfalse : isWeakHadith h = false := by simp [isWeakHadith, hg]
      rw [hfalse]
      constructor
      · intro h0; exact absurd h0 (by decide)
      · rintro ⟨ind, hmem, hc⟩
        rw [hg] at hc
        fin_cases hmem <;> exact absurd hc (by decide)
    · simp only [isWeakHadith, if_neg hg]
      exact List.any_eq_true
  · intro h hg
    simp [isWeakHadith, hg]

/-- Claim C8: should_generate is true exactly when the target ISO date
string is lexicographically greater than the stored last date, and after
advancing to 2024-01-02 it is false for 2024-01-02, true for 2024-01-03,
and false for 2024-01-01. -/
theorem should_generate_lexicographic :
    (∀ (st : DailyState) (d : Str),
        shouldGenerateForDate st d = true ↔ List.Lex (· < ·) st.last_date d) ∧
    (∀ (st : DailyState) (ct : Str) (surah ayah hadith : Option Nat),
        shouldGenerateForDate
            (updateAfterGeneration st ct surah ayah hadith (("2024-01-02").data))
            (("2024-01-02").data) = false ∧
        shouldGenerateForDate
            (updateAfterGeneration st ct surah ayah hadith (("2024-01-02").data))
            (("2024-01-03").data) = true ∧
        shouldGenerateForDate
            (updateAfterGeneration st ct surah ayah hadith (("2024-01-02").data))
            (("2024-01-01").data) = false) := by
  constructor
  · intro st d
    exact pyStrLt_iff_lex st.last_date d
  · intro st ct surah ayah hadith
    refine ⟨?_, ?_, ?_⟩ <;>
      · rw [shouldGenerateForDate, update_last_date]
        decide

/-- Claim C9: advancing twice with the same date, content type and
positions yields the same progress state as advancing once. -/
theorem advance_idempotent (st : DailyState) (ct : Str) (surah ayah hadith : Option Nat)
    (d : Str) :
    updateAfterGeneration (updateAfterGeneration st ct surah ayah hadith d)
        ct surah ayah hadith d =
      updateAfterGeneration st ct surah ayah hadith d := by
  rcases surah with _ | s1 <;> rcases ayah with _ | a1 <;> rcases hadith with _ | h1 <;>
    cases st <;> simp [updateAfterGeneration] <;> split_ifs <;> rfl

/-- Claim C10: advance updates only the cursor fields of the generated
content type — an ayat advance leaves the hadith cursor alone, a hadith
advance leaves the verse cursor alone, an unrecognized content type leaves
every cursor alone — while the date and content-type fields are always
overwritten. -/
theorem advance_frame :
    ∀ (st : DailyState) (surah ayah hadith : Option Nat) (d : Str),
      ((updateAfterGeneration st (("ayat").data) surah ayah hadith d).last_hadith
          = st.last_hadith) ∧
      ((updateAfterGeneration st (("hadith").data) surah ayah hadith d).last_surah
          = st.last_surah) ∧
      ((updateAfterGeneration st (("hadith").data) surah ayah hadith d).last_ayah
          = st.last_ayah) ∧
      (∀ ct : Str, (updateAfterGeneration st ct surah ayah hadith d).last_date = d ∧
          (updateAfterGeneration st ct surah ayah hadith d).content_type = ct) ∧
      (∀ ct : Str, ct ≠ ("ayat").data → ct ≠ ("both").data →
          (updateAfterGeneration st ct surah ayah hadith d).last_surah = st.last_surah ∧
          (updateAfterGeneration st ct surah ayah hadith d).last_ayah = st.last_ayah) ∧
      (∀ ct : Str, ct ≠ ("hadith").data → ct ≠ ("both").data →
          (updateAfterGeneration st ct surah ayah hadith d).last_hadith = st.last_hadith) := by
  intro st surah ayah hadith d
  refine ⟨?_, ?_, ?_, fun ct => ⟨update_last_date .., update_content_type ..⟩, ?_, ?_⟩
  · rcases surah with _ | s1 <;> rcases ayah with _ | a1 <;> rcases hadith with _ | h1 <;>
      simp [updateAfterGeneration] <;> split_ifs <;> simp_all
  · rcases surah with _ | s1 <;> rcases ayah with _ | a1 <;> rcases hadith with _ | h1 <;>
      simp [updateAfterGeneration] <;> split_ifs <;> simp_all
  · rcases surah with _ | s1 <;> rcases ayah with _ | a1 <;> rcases hadith with _ | h1 <;>
      simp [updateAfterGeneration] <;> split_ifs <;> simp_all
  · intro ct h1 h2
    rcases surah with _ | s1 <;> rcases ayah with _ | a1 <;> rcases hadith with _ | h1 <;>
      simp [updateAfterGeneration] <;> split_ifs <;> simp_all
  · intro ct h1 h2
    rcases surah with _ | s1 <;> rcases ayah with _ | a1 <;> rcases hadith with _ | h1 <;>
      simp [updateAfterGeneration] <;> split_ifs <;> simp_all

/-- Witness for C10 at a concrete state, positions, and an unrecognized
content type. -/
theorem advance_frame_witness :
    (("x").data ≠ ("ayat").data) ∧ (("x").data ≠ ("both").data) ∧
    (updateAfterGeneration exState (("x").data) (some 5) (some 6) (some 7)
        (("2024-02-02").data)).last_surah = exState.last_surah ∧
    (updateAfterGeneration exState (("x").data) (some 5) (some 6) (some 7)
        (("2024-02-02").data)).last_ayah = exState.last_ayah := by
  refine ⟨by decide, by decide, ?_, ?_⟩
  · exact ((advance_frame exState (some 5) (some 6) (some 7)
      (("2024-02-02").data)).2.2.2.2.1 (("x").data) (by decide) (by decide)).1
  · exact ((advance_frame exState (some 5) (some 6) (some 7)
      (("2024-02-02").data)).2.2.2.2.1 (("x").data) (by decide) (by decide)).2

theorem collapseWsAux_congr {x y : List Char}
    (h : List.Forall₂
      (fun c d => pyIsSpace c = pyIsSpace d ∧ (pyIsSpace c = false → c = d)) x y) :
    ∀ b, collapseWsAux b x = collapseWsAux b y := by
  induction h with
  | nil => intro b; rfl
  | cons hcd htail ih =>
    intro b
    rename_i c d x' y'
    obtain ⟨h1, h2⟩ := hcd
    by_cases hs : pyIsSpace c = true
    · have hd : pyIsSpace d = true := h1 ▸ hs
      rw [collapseWsAux, collapseWsAux, if_pos hs, if_pos hd]
      cases b
      · simp only [ih]
      · simp only [ih]
    · have hc2 : c = d := h2 (by simpa using hs)
      have hd : ¬ pyIsSpace d = true := hc2 ▸ hs
      rw [collapseWsAux, collapseWsAux, if_neg hs, if_neg hd, hc2, ih]

theorem mapActualNewline_forall₂ (x : List Char) :
    List.Forall₂
      (fun c d => pyIsSpace c = pyIsSpace d ∧ (pyIsSpace c = false → c = d))
      (mapActualNewline x) (wsToSpace x) := by
  induction x with
  | nil => exact List.Forall₂.nil
  | cons c t ih =>
    refine List.Forall₂.cons ?_ ih
    by_cases hs : pyIsSpace c = true
    · by_cases hnl : c = '\n'
      · subst hnl
        constructor
        · rfl
        · intro hcontra; exact absurd hcontra (by decide)
      · have hm : (if c == '\n' then ' ' else c) = c := by simp [hnl]
        have hw : (if pyIsSpace c then ' ' else c) = ' ' := by simp [hs]
        simp only [mapActualNewline, wsToSpace, hm, hw]
        constructor
        · rw [hs]; decide
        · intro hcontra; exact absurd hs (by simp [hcontra])
    · have hnl : c ≠ '\n' := by
        intro hceq; exact hs (by rw [hceq]; decide)
      have hm : (if c == '\n' then ' ' else c) = c := by simp [hnl]
      have hw : (if pyIsSpace c then ' ' else c) = c := by simp [hs]
      simp only [mapActualNewline, wsToSpace, hm, hw]
      exact ⟨trivial, fun _ => trivial⟩

/-- Counterexample for claim C3 as stated: the cleaner leaves a literal
backslash-r escape untouched where the claimed normalization would turn it
into a space, and `get_ayah` returns the stored English translation with
its actual newline intact instead of the normalized text. -/
theorem clean_text_counterexample :
    cleanText (("a\\rb").data) = ("a\\rb").data ∧
    specCleanText (("a\\rb").data) = ("a b").data ∧
    cleanText (("a\\rb").data) ≠ specCleanText (("a\\rb").data) ∧
    (getAyah qdbDirty 1 1).map (fun a => a.english_translation) = some (("e\nf").data) ∧
    cleanText (("e\nf").data) = ("e f").data ∧
    (getAyah qdbDirty 1 1).map (fun a => a.english_translation) ≠
      some (cleanText (("e\nf").data)) := by
  decide

/-- Claim C3 as amended: the cleaner replaces literal backslash-n escapes
with spaces, collapses runs of actual whitespace control characters into
single spaces and trims (literal backslash-r and backslash-t escapes and
stray backslashes are preserved), and it is applied to the Arabic and Urdu
fields of fetched verses and hadiths while the English translation and
surah name are returned as stored. -/
theorem clean_text_amended :
    (∀ l : Str, cleanText l = amendedCleanText l) ∧
    (∀ (db : QuranDb) (s n : Nat) (a : Ayah), getAyah db s n = some a →
      ∃ ar sr tr,
        db.ayahs.find? (fun r => r.surah == s && r.ayah == n) = some ar ∧
        db.surahs.find? (fun r => r.surah == s) = some sr ∧
        db.translations.find? (fun r => r.surah == s && r.ayah == n) = some tr ∧
        a.arabic_text = cleanText ar.text ∧
        a.urdu_translation = cleanText tr.urdu ∧
        a.english_translation = tr.english ∧
        a.surah_name = sr.nameEnglish) ∧
    (∀ (db : List HadithRow) (n : Nat) (h : Hadith), dbGetHadith db n = some h →
      ∃ r, db.find? (fun x => x.num == n) = some r ∧
        h.arabic_text = cleanText r.arabic ∧
        h.urdu_translation = cleanText r.urdu ∧
        h.english_translation = generateHadithEnglish r.num r.urdu) := by
  refine ⟨?_, ?_, ?_⟩
  · intro l
    rw [cleanText, amendedCleanText, collapseWs, collapseWs,
      collapseWsAux_congr (mapActualNewline_forall₂ (replaceLitBackslashN l))]
  · intro db s n a h
    rcases har : db.ayahs.find? (fun r => r.surah == s && r.ayah == n) with _ | ar
    · rw [getAyah, har] at h; cases h
    · rcases hsr : db.surahs.find? (fun r => r.surah == s) with _ | sr
      · rw [getAyah, har, hsr] at h; cases h
      · rcases htr : db.translations.find? (fun r => r.surah == s && r.ayah == n) with _ | tr
        · rw [getAyah, har, hsr, htr] at h; cases h
        · rw [getAyah, har, hsr, htr] at h
          refine ⟨ar, sr, tr, har, hsr, htr, ?_, ?_, ?_, ?_⟩ <;>
            · cases h; rfl
  · intro db n h hfind
    rcases hr : db.find? (fun x => x.num == n) with _ | r
    · rw [dbGetHadith, hr] at hfind; cases hfind
    · rw [dbGetHadith, hr] at hfind
      refine ⟨r, hr, ?_, ?_, ?_⟩ <;>
        · cases hfind; rfl

/-- Witness for the amended claim C3 at a concrete database row. -/
theorem clean_text_amended_witness :
    getAyah qdbDirty 1 1 =
      some (Ayah.mk 1 1 (("ar").data) (("ur").data) (("e\nf").data) (("Name").data)) ∧
    ∃ ar sr tr,
      (qdbDirty.ayahs.find? (fun r => r.surah == 1 && r.ayah == 1) = some ar) ∧
      (qdbDirty.surahs.find? (fun r => r.surah == 1) = some sr) ∧
      (qdbDirty.translations.find? (fun r => r.surah == 1 && r.ayah == 1) = some tr) ∧
      (Ayah.mk 1 1 (("ar").data) (("ur").data) (("e\nf").data) (("Name").data)).arabic_text
        = cleanText ar.text ∧
      (Ayah.mk 1 1 (("ar").data) (("ur").data) (("e\nf").data) (("Name").data)).english_translation
        = tr.english := by
  refine ⟨by decide, ?_⟩
  obtain ⟨ar, sr, tr, h1, h2, h3, h4, h5, h6, h7⟩ :=
    clean_text_amended.2.1 qdbDirty 1 1
      (Ayah.mk 1 1 (("ar").data) (("ur").data) (("e\nf").data) (("Name").data)) (by decide)
  exact ⟨ar, sr, tr, h1, h2, h3, h4, h6⟩

theorem listMin_eq_none {l : List Nat} : listMin l = none ↔ l = [] := by
  cases l with
  | nil => simp [listMin]
  | cons a l =>
    cases h : listMin l <;> simp [listMin, h]

theorem listMin_spec {l : List Nat} {m : Nat} (h : listMin l = some m) :
    m ∈ l ∧ ∀ x ∈ l, m ≤ x := by
  induction l generalizing m with
  | nil => cases h
  | cons a l ih =>
    rw [listMin] at h
    cases hl : listMin l with
    | none =>
      rw [hl] at h
      cases h
      have hnil : l = [] := listMin_eq_none.mp hl
      subst hnil
      simp
    | some b =>
      rw [hl] at h
      cases h
      obtain ⟨hmem, hle⟩ := ih hl
      constructor
      · rcases le_total a b with hab | hba
        · simp [min_eq_left hab]
        · rw [min_eq_right hba]
          exact List.mem_cons_of_mem _ hmem
      · intro x hx
        rcases List.mem_cons.mp hx with hxa | hxl
        · rw [hxa]; exact min_le_left a b
        · exact le_trans (min_le_right a b) (hle x hxl)

theorem listMin_isSome {l : List Nat} (h : l ≠ []) : ∃ m, listMin l = some m := by
  cases hl : listMin l with
  | none => exact absurd (listMin_eq_none.mp hl) h
  | some m => exact ⟨m, rfl⟩

theorem mem_ayahNumbersAfter {t : List AyahRow} {s n m : Nat} :
    m ∈ ayahNumbersAfter t s n ↔ ∃ r ∈ t, r.surah = s ∧ n < r.ayah ∧ r.ayah = m := by
  rw [ayahNumbersAfter, List.mem_filterMap]
  constructor
  · rintro ⟨r, hr, hf⟩
    split at hf
    · rename_i hc
      cases hf
      simp only [Bool.and_eq_true, beq_iff_eq, decide_eq_true_eq] at hc
      exact ⟨r, hr, hc.1, hc.2, rfl⟩
    · cases hf
  · rintro ⟨r, hr, h1, h2, h3⟩
    subst h3
    exact ⟨r, hr, by simp [h1, h2]⟩

theorem mem_surahNumbersAfter {t : List AyahRow} {s m : Nat} :
    m ∈ surahNumbersAfter t s ↔ ∃ r ∈ t, s < r.surah ∧ r.surah = m := by
  rw [surahNumbersAfter, List.mem_filterMap]
  constructor
  · rintro ⟨r, hr, hf⟩
    split at hf
    · rename_i hc
      cases hf
      exact ⟨r, hr, hc, rfl⟩
    · cases hf
  · rintro ⟨r, hr, h1, h2⟩
    subst h2
    exact ⟨r, hr, by simp [h1]⟩

theorem mem_ayahNumbersOf {t : List AyahRow} {s m : Nat} :
    m ∈ ayahNumbersOf t s ↔ ∃ r ∈ t, r.surah = s ∧ r.ayah = m := by
  rw [ayahNumbersOf, List.mem_filterMap]
  constructor
  · rintro ⟨r, hr, hf⟩
    split at hf
    · rename_i hc
      cases hf
      simp only [beq_iff_eq] at hc
      exact ⟨r, hr, hc, rfl⟩
    · cases hf
  · rintro ⟨r, hr, h1, h2⟩
    subst h2
    exact ⟨r, hr, by simp [h1]⟩

/-- Claim C4: from any position, the successor computation returns the
immediate successor ayah within the same surah when one exists, otherwise
the first ayah of the nearest later surah, otherwise the hard-coded wrap
to surah 1, ayah 1 — always a value, never an error. -/
theorem next_position_characterization :
    ∀ (t : List AyahRow) (s n : Nat),
      ((∃ r ∈ t, r.surah = s ∧ n < r.ayah) →
        ∃ m, nextAyahPos t s n = (s, m) ∧
          (∃ r ∈ t, r.surah = s ∧ r.ayah = m) ∧ n < m ∧
          (∀ r ∈ t, r.surah = s → n < r.ayah → m ≤ r.ayah)) ∧
      ((¬ ∃ r ∈ t, r.surah = s ∧ n < r.ayah) → (∃ r ∈ t, s < r.surah) →
        ∃ s2 m, nextAyahPos t s n = (s2, m) ∧ s < s2 ∧
          (∃ r ∈ t, r.surah = s2 ∧ r.ayah = m) ∧
          (∀ r ∈ t, s < r.surah → s2 ≤ r.surah) ∧
          (∀ r ∈ t, r.surah = s2 → m ≤ r.ayah)) ∧
      ((¬ ∃ r ∈ t, r.surah = s ∧ n < r.ayah) → (¬ ∃ r ∈ t, s < r.surah) →
        nextAyahPos t s n = (1, 1)) := by
  intro t s n
  refine ⟨?_, ?_, ?_⟩
  · rintro ⟨r, hr, h1, h2⟩
    have hmem : r.ayah ∈ ayahNumbersAfter t s n :=
      mem_ayahNumbersAfter.mpr ⟨r, hr, h1, h2, rfl⟩
    obtain ⟨m, hm⟩ := listMin_isSome (List.ne_nil_of_mem hmem)
    obtain ⟨hmm, hmin⟩ := listMin_spec hm
    obtain ⟨r2, hr2, hs2, hn2, he2⟩ := mem_ayahNumbersAfter.mp hmm
    refine ⟨m, by simp [nextAyahPos, hm], ⟨r2, hr2, hs2, he2⟩, he2 ▸ hn2, ?_⟩
    intro r3 hr3 hs3 hn3
    exact hmin r3.ayah (mem_ayahNumbersAfter.mpr ⟨r3, hr3, hs3, hn3, rfl⟩)
  · rintro hno ⟨r, hr, hs⟩
    have hempty : ayahNumbersAfter t s n = [] := by
      rw [List.eq_nil_iff_forall_not_mem]
      intro m hm
      obtain ⟨r2, hr2, h1, h2, _⟩ := mem_ayahNumbersAfter.mp hm
      exact hno ⟨r2, hr2, h1, h2⟩
    have hnone1 : listMin (ayahNumbersAfter t s n) = none := listMin_eq_none.mpr hempty
    have hmem : r.surah ∈ surahNumbersAfter t s :=
      mem_surahNumbersAfter.mpr ⟨r, hr, hs, rfl⟩
    obtain ⟨s2, hs2eq⟩ := listMin_isSome (List.ne_nil_of_mem hmem)
    obtain ⟨hs2mem, hs2min⟩ := listMin_spec hs2eq
    obtain ⟨r2, hr2, hlt2, he2⟩ := mem_surahNumbersAfter.mp hs2mem
    have hmem2 : r2.ayah ∈ ayahNumbersOf t s2 :=
      mem_ayahNumbersOf.mpr ⟨r2, hr2, he2, rfl⟩
    obtain ⟨m, hmeq⟩ := listMin_isSome (List.ne_nil_of_mem hmem2)
    obtain ⟨hmmem, hmmin⟩ := listMin_spec hmeq
    obtain ⟨r3, hr3, hs3, he3⟩ := mem_ayahNumbersOf.mp hmmem
    refine ⟨s2, m, by simp [nextAyahPos, hnone1, hs2eq, hmeq], he2 ▸ hlt2,
      ⟨r3, hr3, hs3, he3⟩, ?_, ?_⟩
    · intro r4 hr4 hlt4
      exact hs2min r4.surah (mem_surahNumbersAfter.mpr ⟨r4, hr4, hlt4, rfl⟩)
    · intro r4 hr4 he4
      exact hmmin r4.ayah (mem_ayahNumbersOf.mpr ⟨r4, hr4, he4, rfl⟩)
  · intro hno1 hno2
    have hempty1 : ayahNumbersAfter t s n = [] := by
      rw [List.eq_nil_iff_forall_not_mem]
      intro m hm
      obtain ⟨r2, hr2, h1, h2, _⟩ := mem_ayahNumbersAfter.mp hm
      exact hno1 ⟨r2, hr2, h1, h2⟩
    have hempty2 : surahNumbersAfter t s = [] := by
      rw [List.eq_nil_iff_forall_not_mem]
      intro m hm
      obtain ⟨r2, hr2, h1, _⟩ := mem_surahNumbersAfter.mp hm
      exact hno2 ⟨r2, hr2, h1⟩
    simp [nextAyahPos, listMin_eq_none.mpr hempty1, listMin_eq_none.mpr hempty2]

/-- Witness for C4 at a concrete ayah table: from surah 1, ayah 1 the
successor is within the surah. -/
theorem next_position_characterization_witness :
    (∃ r ∈ qdbEx.ayahs, r.surah = 1 ∧ 1 < r.ayah) ∧
    (∃ m, nextAyahPos qdbEx.ayahs 1 1 = (1, m) ∧
      (∃ r ∈ qdbEx.ayahs, r.surah = 1 ∧ r.ayah = m) ∧ 1 < m ∧
      (∀ r ∈ qdbEx.ayahs, r.surah = 1 → 1 < r.ayah → m ≤ r.ayah)) := by
  refine ⟨by decide, ?_⟩
  exact (next_position_characterization qdbEx.ayahs 1 1).1 (by decide)

theorem totalLen_cons (a : Ayah) (l : List Ayah) :
    totalLen (a :: l) = contentLength a + totalLen l := by
  simp [totalLen]

theorem selGo_length_le : ∀ (rest : List Ayah) (last : Ayah) (cur : Nat),
    (selGo last cur rest).length ≤ rest.length := by
  intro rest
  induction rest with
  | nil => intro last cur; simp [selGo]
  | cons next rest ih =>
    intro last cur
    rw [selGo]
    split_ifs with h1 h2 h3
    · simp
    · simp
    · simp
    · simpa using Nat.succ_le_succ (ih next (cur + contentLength next))

theorem selGo_mem : ∀ (rest : List Ayah) (last : Ayah) (cur : Nat) (a : Ayah),
    a ∈ selGo last cur rest → a ∈ rest := by
  intro rest
  induction rest with
  | nil => intro last cur a h; simp [selGo] at h
  | cons next rest ih =>
    intro last cur a h
    rw [selGo] at h
    split_ifs at h
    · cases h
    · cases h
    · cases h
    · rcases List.mem_cons.mp h with h | h
      · exact h ▸ List.mem_cons_self next rest
      · exact List.mem_cons_of_mem next (ih next (cur + contentLength next) a h)

theorem selGo_sum_le : ∀ (rest : List Ayah) (last : Ayah) (cur : Nat),
    cur ≤ MAX_CONTENT_LENGTH →
    cur + totalLen (selGo last cur rest) ≤ MAX_CONTENT_LENGTH := by
  intro rest
  induction rest with
  | nil => intro last cur hcur; simpa [selGo, totalLen] using hcur
  | cons next rest ih =>
    intro last cur hcur
    rw [selGo]
    split_ifs with h1 h2 h3
    · simpa [totalLen] using hcur
    · simpa [totalLen] using hcur
    · simpa [totalLen] using hcur
    · have := ih next (cur + contentLength next) (le_of_not_lt h3)
      rw [totalLen_cons]
      omega

theorem selGo_chain : ∀ (rest : List Ayah) (last : Ayah) (cur : Nat),
    List.Chain (fun a b => b.ayah_number = a.ayah_number + 1) last (selGo last cur rest) := by
  intro rest
  induction rest with
  | nil => intro last cur; exact List.Chain.nil
  | cons next rest ih =>
    intro last cur
    rw [selGo]
    split_ifs with h1 h2 h3
    · exact List.Chain.nil
    · exact List.Chain.nil
    · exact List.Chain.nil
    · exact List.Chain.cons (not_ne_iff.mp h2) (ih next (cur + contentLength next))

theorem selGo_take_lt : ∀ (rest : List Ayah) (last : Ayah) (cur j : Nat),
    j < (selGo last cur rest).length →
    cur + totalLen ((selGo last cur rest).take j) < MIN_CONTENT_LENGTH := by
  intro rest
  induction rest with
  | nil => intro last cur j h; simp [selGo] at h
  | cons next rest ih =>
    intro last cur j h
    rw [selGo] at h ⊢
    split_ifs at h ⊢ with h1 h2 h3
    · simp at h
    · simp at h
    · simp at h
    · cases j with
      | zero =>
        simpa [totalLen] using lt_of_not_le h1
      | succ j =>
        have hj : j < (selGo next (cur + contentLength next) rest).length := by
          simpa using h
        have := ih next (cur + contentLength next) j hj
        simp only [List.take_succ_cons, totalLen_cons]
        omega

theorem combineAyahs_count (f : Ayah) (rest : List Ayah) :
    (combineAyahs f rest).ayah_count = (f :: rest).length := by
  cases rest <;> rfl

theorem mem_getAyahsInSurah_surah {db : QuranDb} {s n c : Nat} {a : Ayah}
    (h : a ∈ getAyahsInSurah db s n c) : a.surah_number = s := by
  rw [getAyahsInSurah] at h
  have h2 := List.mem_of_mem_take h
  obtain ⟨r, hr, hj⟩ := List.mem_filterMap.mp h2
  have hpred := (List.mem_filter.mp hr).2
  simp only [Bool.and_eq_true, beq_iff_eq, decide_eq_true_eq] at hpred
  rw [joinRow] at hj
  split at hj
  · cases hj
    exact hpred.1
  · cases hj

/-- Claim C2: whenever verses are fetched at a starting position, the
combiner produces a unit of 1 to MAX_AYAHS_TO_COMBINE verses, all from the
requested surah and in strictly consecutive order; the combined character
length of the included verses never exceeds MAX_CONTENT_LENGTH unless the
first verse alone already does; and no verse is added once the running
length has reached MIN_CONTENT_LENGTH. -/
theorem combiner_invariants :
    ∀ (db : QuranDb) (s n : Nat),
      getAyahsInSurah db s n MAX_AYAHS_TO_COMBINE ≠ [] →
      ∃ first rest,
        getAyahsInSurah db s n MAX_AYAHS_TO_COMBINE = first :: rest ∧
        getCombinedAyahs db s n =
          some (combineAyahs first (selGo first (contentLength first) rest)) ∧
        1 ≤ (selectFrom first rest).length ∧
        (selectFrom first rest).length ≤ MAX_AYAHS_TO_COMBINE ∧
        (combineAyahs first (selGo first (contentLength first) rest)).ayah_count
          = (selectFrom first rest).length ∧
        (∀ a ∈ selectFrom first rest, a.surah_number = s) ∧
        List.Chain' (fun a b => b.ayah_number = a.ayah_number + 1) (selectFrom first rest) ∧
        (totalLen (selectFrom first rest) ≤ MAX_CONTENT_LENGTH ∨
          MAX_CONTENT_LENGTH < contentLength first) ∧
        (∀ i, 1 ≤ i → i < (selectFrom first rest).length →
          totalLen ((selectFrom first rest).take i) < MIN_CONTENT_LENGTH) := by
  intro db s n h
  cases heq : getAyahsInSurah db s n MAX_AYAHS_TO_COMBINE with
  | nil => exact absurd heq h
  | cons first rest =>
    refine ⟨first, rest, rfl, ?_, ?_, ?_, combineAyahs_count first _, ?_, ?_, ?_, ?_⟩
    · rw [getCombinedAyahs, heq]
    · simp [selectFrom]
    · have h1 : (selGo first (contentLength first) rest).length ≤ rest.length :=
        selGo_length_le rest first (contentLength first)
      have h2 : (first :: rest).length ≤ MAX_AYAHS_TO_COMBINE := by
        rw [← heq, getAyahsInSurah]
        exact List.length_take_le _ _
      simp only [selectFrom, List.length_cons] at h2 ⊢
      omega
    · intro a ha
      rcases List.mem_cons.mp ha with ha | ha
      · exact ha ▸ mem_getAyahsInSurah_surah (heq ▸ List.mem_cons_self first rest)
      · have : a ∈ rest := selGo_mem rest first (contentLength first) a ha
        exact mem_getAyahsInSurah_surah (heq ▸ List.mem_cons_of_mem first this)
    · exact selGo_chain rest first (contentLength first)
    · by_cases hf : contentLength first ≤ MAX_CONTENT_LENGTH
      · left
        rw [selectFrom, totalLen_cons]
        exact selGo_sum_le rest first (contentLength first) hf
      · right
        exact lt_of_not_le hf
    · intro i h1 h2
      obtain ⟨j, rfl⟩ : ∃ j, i = j + 1 := ⟨i - 1, by omega⟩
      simp only [selectFrom, List.length_cons, Nat.add_lt_add_iff_right] at h2
      simp only [selectFrom, List.take_succ_cons, totalLen_cons]
      exact selGo_take_lt rest first (contentLength first) j h2

/-- Witness for C2 on a concrete database: at surah 1, ayah 1 of `qdbEx`
the fetch is nonempty and the invariants hold. -/
theorem combiner_invariants_witness :
    getAyahsInSurah qdbEx 1 1 MAX_AYAHS_TO_COMBINE ≠ [] ∧
    ∃ first rest,
      getAyahsInSurah qdbEx 1 1 MAX_AYAHS_TO_COMBINE = first :: rest ∧
      getCombinedAyahs qdbEx 1 1 =
        some (combineAyahs first (selGo first (contentLength first) rest)) ∧
      1 ≤ (selectFrom first rest).length ∧
      (selectFrom first rest).length ≤ MAX_AYAHS_TO_COMBINE ∧
      (combineAyahs first (selGo first (contentLength first) rest)).ayah_count
        = (selectFrom first rest).length ∧
      (∀ a ∈ selectFrom first rest, a.surah_number = 1) ∧
      List.Chain' (fun a b => b.ayah_number = a.ayah_number + 1) (selectFrom first rest) ∧
      (totalLen (selectFrom first rest) ≤ MAX_CONTENT_LENGTH ∨
        MAX_CONTENT_LENGTH < contentLength first) ∧
      (∀ i, 1 ≤ i → i < (selectFrom first rest).length →
        totalLen ((selectFrom first rest).take i) < MIN_CONTENT_LENGTH) :=
  ⟨by decide, combiner_invariants qdbEx 1 1 (by decide)⟩

theorem dbGetHadith_of_mem {db : List HadithRow} {m : Nat}
    (h : ∃ r ∈ db, r.num = m) :
    ∃ hh, dbGetHadith db m = some hh ∧ hh.hadith_number = m := by
  rcases hfind : db.find? (fun r => r.num == m) with _ | r
  · obtain ⟨r, hr, hm⟩ := h
    have := List.find?_eq_none.mp hfind r hr
    simp [hm] at this
  · have hp := List.find?_some (p := fun r : HadithRow => r.num == m) (a := r) hfind
    refine ⟨_, by rw [dbGetHadith, hfind]; rfl, ?_⟩
    simpa using hp

theorem mem_hadithNumbersGt {db : List HadithRow} {n m : Nat} :
    m ∈ hadithNumbersGt db n ↔ ∃ r ∈ db, n < r.num ∧ r.num = m := by
  rw [hadithNumbersGt, List.mem_filterMap]
  constructor
  · rintro ⟨r, hr, hf⟩
    split at hf
    · rename_i hc
      cases hf
      exact ⟨r, hr, hc, rfl⟩
    · cases hf
  · rintro ⟨r, hr, h1, h2⟩
    subst h2
    exact ⟨r, hr, by simp [h1]⟩

theorem mem_hadithNumbers {db : List HadithRow} {m : Nat} :
    m ∈ hadithNumbers db ↔ ∃ r ∈ db, r.num = m := by
  simp [hadithNumbers]

theorem dbGetNextHadith_of_ne_nil {db : List HadithRow} (h : db ≠ []) (n : Nat) :
    ∃ hh, dbGetNextHadith db n = some hh := by
  cases hgt : listMin (hadithNumbersGt db n) with
  | some m =>
    obtain ⟨hmem, _⟩ := listMin_spec hgt
    obtain ⟨r, hr, _, he⟩ := mem_hadithNumbersGt.mp hmem
    obtain ⟨hh, hh1, _⟩ := dbGetHadith_of_mem ⟨r, hr, he⟩
    exact ⟨hh, by rw [dbGetNextHadith, hgt]; simpa using hh1⟩
  | none =>
    have hne : hadithNumbers db ≠ [] := by
      cases db with
      | nil => exact absurd rfl h
      | cons r db => simp [hadithNumbers]
    obtain ⟨m, hm⟩ := listMin_isSome hne
    obtain ⟨hmem, _⟩ := listMin_spec hm
    obtain ⟨r, hr, he⟩ := mem_hadithNumbers.mp hmem
    obtain ⟨hh, hh1, _⟩ := dbGetHadith_of_mem ⟨r, hr, he⟩
    exact ⟨hh, by rw [dbGetNextHadith, hgt, hm]; simpa using hh1⟩

/-- Claim C1: the retry loop of the resolver, with its attempt budget,
asks the local store for the successor of the number tried last (not the
original), resolves it through the configured source, returns the first
record the weak gate accepts, and fails with the exhausted-retries error
when every resolved record is weak; on the concrete store with hadiths
1, 2, 3 whose configured source grades number 2 weak, starting from 1
returns hadith 3, and when every record is graded weak the call with
budget 5 fails with the exhausted-retries error. -/
theorem get_next_hadith_skips_weak :
    (∀ (p : HadithProvider) (db : List HadithRow) (n : Nat),
        p.db = some db →
        getNextHadith p n 0 = Except.error ProviderError.exhaustedRetries) ∧
    (∀ (p : HadithProvider) (db : List HadithRow) (fuel n : Nat)
        (meta h : Hadith),
        p.db = some db → dbGetNextHadith db n = some meta →
        getHadith p meta.hadith_number = Except.ok h →
        (isWeakHadith h = false → getNextHadith p n (fuel + 1) = Except.ok h) ∧
        (isWeakHadith h = true →
          getNextHadith p n (fuel + 1) = getNextHadith p meta.hadith_number fuel)) ∧
    (∀ (p : HadithProvider) (db : List HadithRow) (fuel n : Nat),
        p.db = some db → db ≠ [] →
        (∀ m, ∃ hh, getHadith p m = Except.ok hh ∧ isWeakHadith hh = true) →
        getNextHadith p n fuel = Except.error ProviderError.exhaustedRetries) ∧
    getNextHadith exProvider 1 5 = Except.ok (convertScraped exProvider (exScraped 3)) ∧
    (convertScraped exProvider (exScraped 3)).hadith_number = 3 ∧
    getNextHadith exProviderAllWeak 1 5 = Except.error ProviderError.exhaustedRetries := by
  refine ⟨?_, ?_, ?_, by rfl, by rfl, by rfl⟩
  · intro p db n hdb
    rw [getNextHadith, hdb]
    rfl
  · intro p db fuel n meta h hdb hmeta hget
    have h0 : getNextHadith p n (fuel + 1) = getNextHadithLoop p db (fuel + 1) n := by
      rw [getNextHadith, hdb]
    have h1 : getNextHadith p meta.hadith_number fuel
        = getNextHadithLoop p db fuel meta.hadith_number := by
      rw [getNextHadith, hdb]
    constructor
    · intro hw
      rw [h0]
      simp [getNextHadithLoop, hmeta, hget, hw]
    · intro hw
      rw [h0, h1]
      simp [getNextHadithLoop, hmeta, hget, hw]
  · intro p db fuel n hdb hne hall
    induction fuel generalizing n with
    | zero =>
      rw [getNextHadith, hdb]
      rfl
    | succ fuel ih =>
      obtain ⟨meta, hmeta⟩ := dbGetNextHadith_of_ne_nil hne n
      obtain ⟨hh, hget, hw⟩ := hall meta.hadith_number
      have h0 : getNextHadith p n (fuel + 1) = getNextHadithLoop p db (fuel + 1) n := by
        rw [getNextHadith, hdb]
      have h1 : getNextHadith p meta.hadith_number fuel
          = getNextHadithLoop p db fuel meta.hadith_number := by
        rw [getNextHadith, hdb]
      have hrec := ih meta.hadith_number
      rw [h1] at hrec
      rw [h0]
      simp [getNextHadithLoop, hmeta, hget, hw, hrec]

/-- Witness for C1: on the concrete provider, the weak record number 2
makes the loop continue from 2 (the previously tried number), not from the
original 1. -/
theorem get_next_hadith_skips_weak_witness :
    getNextHadith exProvider 1 5 = getNextHadith exProvider 2 4 := by
  have h := (get_next_hadith_skips_weak.2.1 exProvider exDb 4 1
      (Hadith.mk 2 (("a2").data) (("u2").data) [] [] [])
      (convertScraped exProvider (exScraped 2)) rfl (by rfl) (by rfl)).2 (by rfl)
  simpa using h

/-- Claim C6: in online mode, after the Primary Remote fails the resolver
returns the Secondary Remote conversion on its success (whose fields are
the Secondary record's, with the locally filled English), is unchanged by
swapping one failing Primary for another, and on Secondary failure falls
back to the local store when enabled and available, failing with the
all-sources-exhausted error otherwise. -/
theorem resolver_secondary_fallback :
    (∀ (p : HadithProvider) (n : Nat) primary secondary (a : AlHadeesScrapedHadith),
        p.mode = ("online").data → p.scraper = some primary →
        primary n = Except.error () → p.alhadees = some secondary →
        secondary n = Except.ok a →
        getHadith p n = Except.ok (convertAlhadees p a) ∧
        (convertAlhadees p a).hadith_number = a.hadith_number ∧
        (convertAlhadees p a).arabic_text = a.arabic_text ∧
        (convertAlhadees p a).urdu_translation = a.urdu_translation ∧
        (convertAlhadees p a).grade = a.grade ∧
        (convertAlhadees p a).graded_by = a.graded_by) ∧
    (∀ (p : HadithProvider) (n : Nat) primary secondary,
        p.mode = ("online").data → p.scraper = some primary →
        primary n = Except.error () → p.alhadees = some secondary →
        secondary n = Except.error () →
        ((p.fallbackToLocal = true → p.db.isSome = true → getHadith p n = localFetch p n) ∧
         (p.fallbackToLocal = false ∨ p.db = none →
           getHadith p n = Except.error ProviderError.sourceExhausted))) ∧
    (∀ (p : HadithProvider) (a : AlHadeesScrapedHadith) (db : List HadithRow) (lh : Hadith),
        p.db = some db → dbGetHadith db a.hadith_number = some lh →
        lh.english_translation ≠ [] →
        (convertAlhadees p a).english_translation = lh.english_translation) ∧
    (∀ (mode : Str) (scr1 scr2 : Nat → Except Unit ScrapedHadith)
        (alh : Option (Nat → Except Unit AlHadeesScrapedHadith))
        (gen : Option (Str → Str → Nat → Except Unit Str))
        (db : Option (List HadithRow)) (fb : Bool) (n : Nat),
        scr1 n = Except.error () → scr2 n = Except.error () →
        getHadith ⟨mode, some scr1, alh, gen, db, fb⟩ n =
          getHadith ⟨mode, some scr2, alh, gen, db, fb⟩ n) := by
  refine ⟨?_, ?_, ?_, ?_⟩
  · intro p n primary secondary a hmode hscr hp halh hs
    refine ⟨?_, rfl, rfl, rfl, rfl, rfl⟩
    rw [getHadith, hscr]
    simp [hmode, hp, halh, hs]
  · intro p n primary secondary hmode hscr hp halh hs
    constructor
    · intro hfb hdb
      rw [getHadith, hscr]
      simp [hmode, hp, halh, hs, hfb, hdb]
    · intro hcase
      rw [getHadith, hscr]
      rcases hcase with hfb | hdb
      · simp [hmode, hp, halh, hs, hfb]
      · simp [hmode, hp, halh, hs, hdb]
  · intro p a db lh hdb hlh hne
    simp [convertAlhadees, localEnglishFill, hdb, hlh, hne]
  · intro mode scr1 scr2 alh gen db fb n h1 h2
    by_cases hmode : mode = ("online").data
    · cases alh with
      | none =>
        simp only [getHadith, hmode, h1, h2]
        rfl
      | some sec =>
        cases hsn : sec n with
        | ok a =>
          simp only [getHadith, hmode, h1, h2, hsn, if_pos]
          rfl
        | error e =>
          simp only [getHadith, hmode, h1, h2, hsn]
          rfl
    · simp only [getHadith, if_neg hmode]
      rfl

/-- Witness for C6 at the concrete fallback provider. -/
theorem resolver_secondary_fallback_witness :
    getHadith exProviderFb 7 = Except.ok (convertAlhadees exProviderFb exSecondary) ∧
    (convertAlhadees exProviderFb exSecondary).arabic_text = exSecondary.arabic_text := by
  have h := (resolver_secondary_fallback.1 exProviderFb 7 (fun _ => Except.error ())
      (fun _ => Except.ok exSecondary) exSecondary rfl rfl rfl rfl rfl)
  exact ⟨h.1, h.2.2.1⟩

/-- Claim C7: on a Secondary Remote success, the AI translation capability
is invoked only when the English field is still empty after the local fill,
a capability is configured, and the weak gate — run on the record before
any AI call — rejects weakness; an AI failure leaves the field empty, the
local fill is best-effort, and the conversion itself always produces a
record (never a fatal error). -/
theorem ai_translation_gate :
    (∀ (p : HadithProvider) (a : AlHadeesScrapedHadith),
        localEnglishFill p a.hadith_number ≠ [] →
        (convertAlhadees p a).english_translation = localEnglishFill p a.hadith_number) ∧
    (∀ (p : HadithProvider) (a : AlHadeesScrapedHadith)
        (gen : Str → Str → Nat → Except Unit Str),
        p.translationGen = some gen →
        localEnglishFill p a.hadith_number = [] →
        isWeakHadith (alhadeesTemp p a) = true →
        (convertAlhadees p a).english_translation = []) ∧
    (∀ (p : HadithProvider) (a : AlHadeesScrapedHadith)
        (gen : Str → Str → Nat → Except Unit Str),
        p.translationGen = some gen →
        localEnglishFill p a.hadith_number = [] →
        isWeakHadith (alhadeesTemp p a) = false →
        (convertAlhadees p a).english_translation =
          (match gen a.arabic_text a.urdu_translation a.hadith_number with
           | Except.ok e => e
           | Except.error _ => [])) ∧
    (∀ (p : HadithProvider) (a : AlHadeesScrapedHadith),
        p.translationGen = none →
        (convertAlhadees p a).english_translation = localEnglishFill p a.hadith_number) ∧
    (∀ (mode : Str) (scr : Option (Nat → Except Unit ScrapedHadith))
        (alh : Option (Nat → Except Unit AlHadeesScrapedHadith))
        (g1 g2 : Str → Str → Nat → Except Unit Str)
        (db : Option (List HadithRow)) (fb : Bool) (a : AlHadeesScrapedHadith),
        (localEnglishFill ⟨mode, scr, alh, some g1, db, fb⟩ a.hadith_number ≠ [] ∨
          isWeakHadith (alhadeesTemp ⟨mode, scr, alh, some g1, db, fb⟩ a) = true) →
        convertAlhadees ⟨mode, scr, alh, some g1, db, fb⟩ a =
          convertAlhadees ⟨mode, scr, alh, some g2, db, fb⟩ a) := by
  have part1 : ∀ (p : HadithProvider) (a : AlHadeesScrapedHadith),
      localEnglishFill p a.hadith_number ≠ [] →
      (convertAlhadees p a).english_translation = localEnglishFill p a.hadith_number := by
    intro p a hne
    simp [convertAlhadees, hne]
  have part2 : ∀ (p : HadithProvider) (a : AlHadeesScrapedHadith)
      (gen : Str → Str → Nat → Except Unit Str),
      p.translationGen = some gen →
      localEnglishFill p a.hadith_number = [] →
      isWeakHadith (alhadeesTemp p a) = true →
      (convertAlhadees p a).english_translation = [] := by
    intro p a gen hgen hfill hweak
    simp [convertAlhadees, hgen, hfill, hweak]
  refine ⟨part1, part2, ?_, ?_, ?_⟩
  · intro p a gen hgen hfill hweak
    simp [convertAlhadees, hgen, hfill, hweak]
  · intro p a hgen
    by_cases h0 : localEnglishFill p a.hadith_number = [] <;>
      simp [convertAlhadees, hgen, h0]
  · intro mode scr alh g1 g2 db fb a hcond
    have htemp : alhadeesTemp ⟨mode, scr, alh, some g1, db, fb⟩ a
        = alhadeesTemp ⟨mode, scr, alh, some g2, db, fb⟩ a := rfl
    have hshape1 : convertAlhadees ⟨mode, scr, alh, some g1, db, fb⟩ a =
        { alhadeesTemp ⟨mode, scr, alh, some g1, db, fb⟩ a with
          english_translation :=
            (convertAlhadees ⟨mode, scr, alh, some g1, db, fb⟩ a).english_translation } := rfl
    have hshape2 : convertAlhadees ⟨mode, scr, alh, some g2, db, fb⟩ a =
        { alhadeesTemp ⟨mode, scr, alh, some g2, db, fb⟩ a with
          english_translation :=
            (convertAlhadees ⟨mode, scr, alh, some g2, db, fb⟩ a).english_translation } := rfl
    have hE : (convertAlhadees ⟨mode, scr, alh, some g1, db, fb⟩ a).english_translation =
        (convertAlhadees ⟨mode, scr, alh, some g2, db, fb⟩ a).english_translation := by
      rcases hcond with hne | hweak
      · have hne2 : localEnglishFill ⟨mode, scr, alh, some g2, db, fb⟩ a.hadith_number ≠ [] :=
          hne
        rw [part1 _ _ hne, part1 _ _ hne2]
        rfl
      · by_cases h0 : localEnglishFill ⟨mode, scr, alh, some g1, db, fb⟩ a.hadith_number = []
        · have h02 : localEnglishFill ⟨mode, scr, alh, some g2, db, fb⟩ a.hadith_number = [] :=
            h0
          have hweak2 : isWeakHadith
              (alhadeesTemp ⟨mode, scr, alh, some g2, db, fb⟩ a) = true := hweak
          rw [part2 _ _ g1 rfl h0 hweak, part2 _ _ g2 rfl h02 hweak2]
        · have h03 : localEnglishFill ⟨mode, scr, alh, some g2, db, fb⟩ a.hadith_number ≠ [] :=
            h0
          rw [part1 _ _ h0, part1 _ _ h03]
          rfl
    rw [hshape1, hshape2, htemp, hE]

/-- Witness for C7: with an empty local fill, a configured capability and
a non-weak grade, the AI result lands in the English field. -/
theorem ai_translation_gate_witness :
    (convertAlhadees exProviderAI exSecondary).english_translation = ("ai").data := by
  have h := ai_translation_gate.2.2.1 exProviderAI exSecondary
      (fun _ _ _ => Except.ok (("ai").data)) rfl (by rfl) (by rfl)
  simpa using h

/-- Witness for C5: the empty-grade case of the gate at a concrete
record. -/
theorem weak_gate_characterization_witness :
    isWeakHadith (hadithWithGrade []) = false :=
  weak_gate_characterization.2.1 (hadithWithGrade []) rfl

/-- Witness for C8 at a concrete state. -/
theorem should_generate_lexicographic_witness :
    shouldGenerateForDate exState (("2024-01-02").data) = true ↔
      List.Lex (· < ·) exState.last_date (("2024-01-02").data) :=
  should_generate_lexicographic.1 exState (("2024-01-02").data)
